import Mathlib

/-!
A shallow embedding of the `mcp-pdf-reader` server (`src/index.ts`).

The server keeps an in-memory cache from a source-identifier string to a
parsed document, slices extracted text into approximate "pages" by line
count, searches lines for a substring, and dispatches tool calls,
converting every thrown error into a textual `Error: <message>` payload.

JavaScript numeric edge cases matter for the page segmenter (division by a
zero page count produces `Infinity`, and `0 * Infinity` is `NaN`), so the
segmenter is modelled over a small JS-number type.  Platform collaborators
(`fs.readFile`, the HTTP client, `pdf-parse`, `path.resolve`) are modelled
as oracle fields of an `Env` record; the HTTP client is included so that
claims about downloading can be stated, even though the code never calls
it.  Exact IEEE rounding of `Math.ceil(a / b)` for astronomically large
finite `a`, `b` is idealised to exact natural arithmetic.
-/

/-- The subset of JavaScript numbers reachable in `handleReadPDFPage`:
integers, the two infinities, and `NaN`. -/
inductive JSNum where
  | fin (n : Int)
  | inf
  | negInf
  | nan
deriving Repr, DecidableEq

/-- `Math.ceil(a / b)` on nonnegative integers: `a / 0` is `Infinity`
(`NaN` for `0 / 0`), otherwise the exact ceiling. -/
def jsCeilDiv (a b : Nat) : JSNum :=
  if b = 0 then (if a = 0 then JSNum.nan else JSNum.inf)
  else JSNum.fin (((a + b - 1) / b : Nat))

/-- JavaScript multiplication of a finite integer by a `JSNum`:
`0 * ±Infinity` is `NaN`, a nonzero finite times `±Infinity` is a signed
infinity, and anything times `NaN` is `NaN`. -/
def jsMulInt (n : Int) : JSNum → JSNum
  | JSNum.fin m => JSNum.fin (n * m)
  | JSNum.inf => if n = 0 then JSNum.nan else if 0 < n then JSNum.inf else JSNum.negInf
  | JSNum.negInf => if n = 0 then JSNum.nan else if 0 < n then JSNum.negInf else JSNum.inf
  | JSNum.nan => JSNum.nan

/-- `Array.prototype.slice` index conversion (`ToIntegerOrInfinity` plus
relative clamping): `NaN` becomes `0`, `+Infinity` clamps to the length,
`-Infinity` becomes `0`, a negative integer counts from the end, and a
nonnegative integer clamps to the length. -/
def jsSliceIndex (len : Nat) : JSNum → Nat
  | JSNum.fin n => if n < 0 then (len + n).toNat else min n.toNat len
  | JSNum.inf => len
  | JSNum.negInf => 0
  | JSNum.nan => 0

/-- `arr.slice(s, e)` under JavaScript index semantics. -/
def jsSlice (l : List α) (s e : JSNum) : List α :=
  (l.take (jsSliceIndex l.length e)).drop (jsSliceIndex l.length s)

/-- `PDFMetadata` from `src/index.ts`: title/author/creation date are
optional, `pages` is the parser-reported page count. -/
structure PDFMetadata where
  title : Option String
  author : Option String
  pages : Nat
  created : Option String
deriving Repr, DecidableEq

/-- `PDFContent`: extracted full text plus metadata; the cached value. -/
structure PDFContent where
  text : String
  metadata : PDFMetadata
deriving Repr, DecidableEq

/-- The fields of the `pdf-parse` result that `loadPDF` consumes. -/
structure ParseData where
  text : String
  numpages : Nat
  info_Title : Option String
  info_Author : Option String
  info_CreationDate : Option String
deriving Repr, DecidableEq

/-- Platform collaborators available to the process: `path.resolve`,
`fs.readFile`, the platform HTTP client (`httpGet`), and the `pdf-parse`
library.  The source code of the server only ever uses `resolve`,
`readFile` and `parse`. -/
structure Env where
  resolve : String → String
  readFile : String → Except String (List Nat)
  httpGet : String → Except String (List Nat)
  parse : List Nat → Except String ParseData

/-- Mutable server state: the `pdfCache` map plus instrumentation
counters recording how many times `fs.readFile` and `pdf-parse` have been
invoked (used to state the no-further-I/O cache properties). -/
structure ServerState where
  pdfCache : List (String × PDFContent)
  fetchCount : Nat
  parseCount : Nat
deriving Repr, DecidableEq

/-- Helper for `splitLines`: scan the characters, cutting at every
newline; the accumulator holds the current line reversed. -/
def splitLinesAux : List Char → List Char → List String
  | [], acc => [String.mk acc.reverse]
  | c :: rest, acc =>
      if c = '\n' then String.mk acc.reverse :: splitLinesAux rest []
      else splitLinesAux rest (c :: acc)

/-- JavaScript `s.split("\n")`: always at least one element, with an
empty trailing element after a trailing newline. -/
def splitLines (s : String) : List String := splitLinesAux s.data []

/-- JavaScript `s.toLowerCase()` (character-wise). -/
def jsToLower (s : String) : String := String.mk (s.data.map Char.toLower)

/-- JavaScript `s.trim()`: strip whitespace from both ends. -/
def jsTrim (s : String) : String :=
  String.mk (((s.data.dropWhile Char.isWhitespace).reverse.dropWhile Char.isWhitespace).reverse)

deriving instance DecidableEq for Except

/-- The `PDFContent` that `loadPDF` constructs from a parse result. -/
def contentOf (data : ParseData) : PDFContent :=
  { text := data.text,
    metadata :=
      { title := data.info_Title,
        author := data.info_Author,
        pages := data.numpages,
        created := data.info_CreationDate } }

/-- `loadPDF`: return the cached content on a cache hit; otherwise read
the file, parse it, cache the result and return it.  Failures propagate
and leave the cache untouched. -/
def loadPDF (env : Env) (st : ServerState) (filePath : String) :
    Except String PDFContent × ServerState :=
  match st.pdfCache.lookup filePath with
  | some c => (Except.ok c, st)
  | none =>
    match env.readFile filePath with
    | Except.error e => (Except.error e, { st with fetchCount := st.fetchCount + 1 })
    | Except.ok dataBuffer =>
      match env.parse dataBuffer with
      | Except.error e =>
          (Except.error e,
           { st with fetchCount := st.fetchCount + 1, parseCount := st.parseCount + 1 })
      | Except.ok data =>
          (Except.ok (contentOf data),
           { st with fetchCount := st.fetchCount + 1, parseCount := st.parseCount + 1,
                     pdfCache := (filePath, contentOf data) :: st.pdfCache })

/-- The page-extraction core of `handleReadPDFPage`: split the text into
lines, estimate `linesPerPage = Math.ceil(lines.length / totalPages)`,
and slice by single page or by range; with neither selector, throw. -/
def extractPageText (content : PDFContent) (page startPage endPage : Option Int) :
    Except String String :=
  let lines := splitLines content.text
  let totalPages := content.metadata.pages
  let linesPerPage := jsCeilDiv lines.length totalPages
  match page with
  | some p =>
      Except.ok (String.intercalate "\n"
        (jsSlice lines (jsMulInt (p - 1) linesPerPage) (jsMulInt p linesPerPage)))
  | none =>
      match startPage, endPage with
      | some s, some e =>
          Except.ok (String.intercalate "\n"
            (jsSlice lines (jsMulInt (s - 1) linesPerPage) (jsMulInt e linesPerPage)))
      | _, _ => Except.error "Must specify either page or both startPage and endPage"

/-- `startsList q s` decides whether `s` starts with `q` (character
lists). -/
def startsList : List Char → List Char → Bool
  | [], _ => true
  | _ :: _, [] => false
  | a :: as, b :: bs => a == b && startsList as bs

/-- `hasSub s q` decides JavaScript `s.includes(q)`: some suffix of `s`
starts with `q`. -/
def hasSub : List Char → List Char → Bool
  | [], q => startsList q []
  | a :: t, q => startsList q (a :: t) || hasSub t q

/-- String-level `includes`. -/
def strIncludes (s q : String) : Bool :=
  hasSub s.data q.data

/-- One element of the `matches` array built by `handleSearchPDF`. -/
structure SearchMatch where
  line : Nat
  text : String
  context : String
deriving Repr, DecidableEq

/-- The match record pushed for the line at 0-based `index`: 1-based line
number, trimmed line text, and `lines.slice(max(0, index-1),
min(lines.length, index+2))` joined with newlines. -/
def mkMatch (lines : List String) (index : Nat) (line : String) : SearchMatch :=
  let contextStart := index - 1
  let contextEnd := min lines.length (index + 2)
  { line := index + 1,
    text := jsTrim line,
    context := String.intercalate "\n" ((lines.take contextEnd).drop contextStart) }

/-- The `lines.forEach((line, index) => ...)` loop of `handleSearchPDF`:
push a match for every line whose (possibly lowercased) text includes the
(possibly lowercased) query. -/
def searchLoop (allLines : List String) (searchQuery : String) (caseSensitive : Bool) :
    List String → Nat → List SearchMatch
  | [], _ => []
  | line :: rest, index =>
      let searchLine := if caseSensitive then line else jsToLower line
      if strIncludes searchLine searchQuery then
        mkMatch allLines index line :: searchLoop allLines searchQuery caseSensitive rest (index + 1)
      else
        searchLoop allLines searchQuery caseSensitive rest (index + 1)

/-- The match list computed by `handleSearchPDF` on a document's full
text: normalize the query unless case-sensitive, split into lines, and
run the scan from index 0. -/
def searchPDFMatches (text query : String) (caseSensitive : Bool) : List SearchMatch :=
  let searchQuery := if caseSensitive then query else jsToLower query
  let lines := splitLines text
  searchLoop lines searchQuery caseSensitive lines 0

/-- A single `type: "text"` content item of a tool response. -/
structure TextContent where
  text : String
deriving Repr, DecidableEq

/-- Escape a string for inclusion in a JSON literal. -/
def jsonEscape (s : String) : String :=
  String.join (s.data.map (fun c =>
    if c = '"' then "\\\""
    else if c = '\\' then "\\\\"
    else if c = '\n' then "\\n"
    else if c = '\r' then "\\r"
    else if c = '\t' then "\\t"
    else String.singleton c))

/-- A JSON string literal. -/
def jstrLit (s : String) : String :=
  "\"" ++ jsonEscape s ++ "\""

/-- A JSON object from pre-rendered `"key": value` fields (undefined
fields are dropped by the callers, as `JSON.stringify` drops them). -/
def renderObj (fields : List String) : String :=
  "\x7b " ++ String.intercalate ", " fields ++ " \x7d"

/-- An optional string-valued JSON field; absent values render to no
field at all, as `JSON.stringify` drops `undefined` properties. -/
def renderOptStrField (name : String) (v : Option String) : List String :=
  match v with
  | some s => [jstrLit name ++ ": " ++ jstrLit s]
  | none => []

/-- The serialized `metadata` object. -/
def renderMetadata (m : PDFMetadata) : String :=
  renderObj (renderOptStrField "title" m.title ++
             renderOptStrField "author" m.author ++
             [jstrLit "pages" ++ ": " ++ toString m.pages] ++
             renderOptStrField "created" m.created)

/-- The response that `handleReadPDF` builds from a loaded document. -/
def readPDFResponseOf (resolvedPath : String) (content : PDFContent) : TextContent :=
  { text := renderObj
      [jstrLit "path" ++ ": " ++ jstrLit resolvedPath,
       jstrLit "text" ++ ": " ++ jstrLit content.text,
       jstrLit "metadata" ++ ": " ++ renderMetadata content.metadata] }

/-- The `requestedRange` field: present only when `startPage && endPage`
is truthy in JavaScript, i.e. both are defined and nonzero. -/
def renderRequestedRange (startPage endPage : Option Int) : List String :=
  match startPage, endPage with
  | some s, some e =>
      if s == 0 || e == 0 then []
      else [jstrLit "requestedRange" ++ ": " ++
            renderObj [jstrLit "startPage" ++ ": " ++ toString s,
                       jstrLit "endPage" ++ ": " ++ toString e]]
  | _, _ => []

/-- The response (or thrown error) that `handleReadPDFPage` builds from a
loaded document. -/
def pageResponseOf (resolvedPath : String) (content : PDFContent)
    (page startPage endPage : Option Int) : Except String TextContent :=
  match extractPageText content page startPage endPage with
  | Except.error e => Except.error e
  | Except.ok extractedText =>
      Except.ok
        { text := renderObj
            ([jstrLit "path" ++ ": " ++ jstrLit resolvedPath] ++
             (match page with
              | some p => [jstrLit "requestedPage" ++ ": " ++ toString p]
              | none => []) ++
             renderRequestedRange startPage endPage ++
             [jstrLit "text" ++ ": " ++ jstrLit extractedText,
              jstrLit "totalPages" ++ ": " ++ toString content.metadata.pages]) }

/-- The response that `handleGetMetadata` builds from a loaded document. -/
def metadataResponseOf (resolvedPath : String) (content : PDFContent) : TextContent :=
  { text := renderObj
      [jstrLit "path" ++ ": " ++ jstrLit resolvedPath,
       jstrLit "metadata" ++ ": " ++ renderMetadata content.metadata] }

/-- One serialized element of the `matches` array. -/
def renderMatch (m : SearchMatch) : String :=
  renderObj [jstrLit "line" ++ ": " ++ toString m.line,
             jstrLit "text" ++ ": " ++ jstrLit m.text,
             jstrLit "context" ++ ": " ++ jstrLit m.context]

/-- The response that `handleSearchPDF` builds from a loaded document:
all matches plus `totalMatches = matches.length`, with no result limit. -/
def searchResponseOf (resolvedPath : String) (content : PDFContent)
    (query : String) (caseSensitive : Bool) : TextContent :=
  let found := searchPDFMatches content.text query caseSensitive
  { text := renderObj
      [jstrLit "path" ++ ": " ++ jstrLit resolvedPath,
       jstrLit "query" ++ ": " ++ jstrLit query,
       jstrLit "matches" ++ ": " ++
         ("[" ++ String.intercalate ", " (found.map renderMatch) ++ "]"),
       jstrLit "totalMatches" ++ ": " ++ toString found.length] }

/-- `handleReadPDF`: resolve the path, load (possibly from cache),
serialize. -/
def handleReadPDF (env : Env) (st : ServerState) (filePath : String) :
    Except String TextContent × ServerState :=
  let resolvedPath := env.resolve filePath
  match loadPDF env st resolvedPath with
  | (Except.error e, st') => (Except.error e, st')
  | (Except.ok content, st') => (Except.ok (readPDFResponseOf resolvedPath content), st')

/-- `handleReadPDFPage`: resolve, load, extract the page slice,
serialize; extraction errors propagate after the load already updated the
cache. -/
def handleReadPDFPage (env : Env) (st : ServerState) (filePath : String)
    (page startPage endPage : Option Int) : Except String TextContent × ServerState :=
  let resolvedPath := env.resolve filePath
  match loadPDF env st resolvedPath with
  | (Except.error e, st') => (Except.error e, st')
  | (Except.ok content, st') => (pageResponseOf resolvedPath content page startPage endPage, st')

/-- `handleGetMetadata`: resolve, load, serialize metadata. -/
def handleGetMetadata (env : Env) (st : ServerState) (filePath : String) :
    Except String TextContent × ServerState :=
  let resolvedPath := env.resolve filePath
  match loadPDF env st resolvedPath with
  | (Except.error e, st') => (Except.error e, st')
  | (Except.ok content, st') => (Except.ok (metadataResponseOf resolvedPath content), st')

/-- `handleSearchPDF`: resolve, load, search, serialize. -/
def handleSearchPDF (env : Env) (st : ServerState) (filePath query : String)
    (caseSensitive : Bool) : Except String TextContent × ServerState :=
  let resolvedPath := env.resolve filePath
  match loadPDF env st resolvedPath with
  | (Except.error e, st') => (Except.error e, st')
  | (Except.ok content, st') =>
      (Except.ok (searchResponseOf resolvedPath content query caseSensitive), st')

/-- A primitive JSON argument value, used where the dispatcher checks
`typeof x !== "string"`. -/
inductive JSArg where
  | str (s : String)
  | num (n : Int)
  | boolean (b : Bool)
deriving Repr, DecidableEq

/-- The argument bag of a tool call.  `page`, `startPage`, `endPage` and
`caseSensitive` are cast without a runtime check in the source
(`as number | undefined`), so they are modelled at their cast types. -/
structure CallArgs where
  path : Option JSArg
  page : Option Int
  startPage : Option Int
  endPage : Option Int
  query : Option JSArg
  caseSensitive : Option Bool
deriving Repr

/-- The `switch (name)` body of the call-tool handler: validate the
string-typed arguments, route to the handler, and throw `Unknown tool:
<name>` for an unrecognized name.  Thrown errors are the `Except.error`
case; the state records cache updates that happened before a throw. -/
def dispatchTool (env : Env) (st : ServerState) (name : String) (a : CallArgs) :
    Except String TextContent × ServerState :=
  if name = "read_pdf" then
    match a.path with
    | some (JSArg.str p) => handleReadPDF env st p
    | _ => (Except.error "path must be a string", st)
  else if name = "read_pdf_page" then
    match a.path with
    | some (JSArg.str p) => handleReadPDFPage env st p a.page a.startPage a.endPage
    | _ => (Except.error "path must be a string", st)
  else if name = "get_pdf_metadata" then
    match a.path with
    | some (JSArg.str p) => handleGetMetadata env st p
    | _ => (Except.error "path must be a string", st)
  else if name = "search_pdf" then
    match a.path with
    | some (JSArg.str p) =>
        match a.query with
        | some (JSArg.str q) => handleSearchPDF env st p q (a.caseSensitive.getD false)
        | _ => (Except.error "query must be a string", st)
    | _ => (Except.error "path must be a string", st)
  else
    (Except.error ("Unknown tool: " ++ name), st)

/-- The call-tool request handler: missing arguments short-circuit to an
error text; otherwise run the switch inside `try`, converting any thrown
error into a normal response whose text is `Error: <message>`. -/
def handleCallTool (env : Env) (st : ServerState) (name : String)
    (args : Option CallArgs) : TextContent × ServerState :=
  match args with
  | none => ({ text := "Error: Missing arguments for tool call" }, st)
  | some a =>
      match dispatchTool env st name a with
      | (Except.ok t, st') => (t, st')
      | (Except.error e, st') => ({ text := "Error: " ++ e }, st')

/-! ## Shared concrete fixtures for witnesses -/

/-- The empty server state at process start. -/
def emptyState : ServerState := { pdfCache := [], fetchCount := 0, parseCount := 0 }

/-- A concrete environment whose filesystem holds one valid PDF at
`/docs/a.pdf`. -/
def oracleEnv : Env :=
  { resolve := fun s => s,
    readFile := fun p => if p = "/docs/a.pdf" then Except.ok [1, 2, 3] else Except.error "ENOENT",
    httpGet := fun _ => Except.error "no network",
    parse := fun b =>
      if b = [1, 2, 3] then
        Except.ok { text := "alpha\nbeta\ngamma", numpages := 3,
                    info_Title := some "T", info_Author := none, info_CreationDate := none }
      else Except.error "bad pdf" }

/-- The document `oracleEnv` serves. -/
def loadedContent : PDFContent :=
  contentOf { text := "alpha\nbeta\ngamma", numpages := 3,
              info_Title := some "T", info_Author := none, info_CreationDate := none }

/-- The server state after loading `/docs/a.pdf` once through
`oracleEnv`. -/
def loadedState : ServerState :=
  { pdfCache := [("/docs/a.pdf", loadedContent)], fetchCount := 1, parseCount := 1 }

/-- An environment where every read, download and parse fails. -/
def failEnv : Env :=
  { resolve := fun s => s,
    readFile := fun _ => Except.error "ENOENT",
    httpGet := fun _ => Except.error "no network",
    parse := fun _ => Except.error "bad pdf" }

/-! ## C1: behavior on a zero page count -/

/-- Claim C1: the spec requires a `read_pdf_page` request on a document
whose metadata reports zero pages to fail with an `InvalidMetadataError`.
The code instead computes `linesPerPage = Math.ceil(lines.length / 0) =
Infinity` and slices with it, returning the whole text for page 1
(`0 * Infinity` is `NaN`, which `slice` coerces to index 0) and the empty
string for later pages; no error is raised.  This theorem evaluates the
code at the failing input. -/
theorem zero_pages_returns_text_not_error :
    extractPageText
        { text := "line one\nline two",
          metadata := { title := none, author := none, pages := 0, created := none } }
        (some 1) none none = Except.ok "line one\nline two" ∧
    extractPageText
        { text := "line one\nline two",
          metadata := { title := none, author := none, pages := 0, created := none } }
        (some 2) none none = Except.ok "" := by
  exact ⟨rfl, rfl⟩

/-! ## C2: no URL download path exists -/

/-- Bytes of a well-formed remote document, served by `urlEnv.httpGet`. -/
def urlBytes : List Nat := [37, 80, 68, 70]

/-- Parse result of `urlBytes`. -/
def urlData : ParseData :=
  { text := "remote text", numpages := 1,
    info_Title := none, info_Author := none, info_CreationDate := none }

/-- An environment whose HTTP client serves a valid PDF at
`http://example.com/doc.pdf` while the local filesystem is empty. -/
def urlEnv : Env :=
  { resolve := fun s => s,
    readFile := fun _ => Except.error "ENOENT: no such file or directory",
    httpGet := fun u =>
      if u = "http://example.com/doc.pdf" then Except.ok urlBytes else Except.error "404",
    parse := fun b => if b = urlBytes then Except.ok urlData else Except.error "bad pdf" }

/-- Counterexample to claim C2: for the identifier
`http://example.com/doc.pdf`, the platform HTTP client serves valid
document bytes and the parser accepts them, yet `loadPDF` fails with the
filesystem error — the loader never issues an HTTP GET, so URLs are not
loaded via HTTP. -/
theorem url_not_fetched_via_http :
    urlEnv.httpGet "http://example.com/doc.pdf" = Except.ok urlBytes ∧
    urlEnv.parse urlBytes = Except.ok urlData ∧
    (loadPDF urlEnv emptyState "http://example.com/doc.pdf").1 =
      Except.error "ENOENT: no such file or directory" := by
  refine ⟨rfl, ?_, rfl⟩
  simp [urlEnv]

/-- Claim C2 (amended): every source identifier, URLs included, is
treated as a filesystem path: `loadPDF` and the whole tool dispatcher are
independent of the platform HTTP client, so no HTTP request is ever
performed. -/
theorem loader_ignores_http_client (env : Env) (g : String → Except String (List Nat))
    (st : ServerState) (k : String) :
    loadPDF { env with httpGet := g } st k = loadPDF env st k ∧
    ∀ (name : String) (a : Option CallArgs),
      handleCallTool { env with httpGet := g } st name a = handleCallTool env st name a := by
  exact ⟨rfl, fun name a => rfl⟩

/-! ## C8: the dispatch boundary converts errors to text -/

/-- Claim C8: every error thrown by a downstream operation is caught at
the dispatch boundary and returned as a normal response whose text is
`Error: <message>`; an unrecognized tool name yields the text
`Error: Unknown tool: <name>`, which begins with `Error: Unknown tool`. -/
theorem dispatch_error_payload :
    (∀ (env : Env) (st : ServerState) (name : String) (a : CallArgs) (e : String)
        (st' : ServerState),
      dispatchTool env st name a = (Except.error e, st') →
      handleCallTool env st name (some a) = ({ text := "Error: " ++ e }, st')) ∧
    (∀ (env : Env) (st : ServerState) (a : CallArgs) (name : String),
      name ∉ ["read_pdf", "read_pdf_page", "get_pdf_metadata", "search_pdf"] →
      (handleCallTool env st name (some a)).1.text = "Error: Unknown tool: " ++ name ∧
      ∃ rest, (handleCallTool env st name (some a)).1.text = "Error: Unknown tool" ++ rest) := by
  constructor
  · intro env st name a e st' h
    simp [handleCallTool, h]
  · intro env st a name hname
    simp only [List.mem_cons, List.mem_singleton, not_or] at hname
    obtain ⟨h1, h2, h3, h4, -⟩ := hname
    have hd : dispatchTool env st name a = (Except.error ("Unknown tool: " ++ name), st) := by
      simp [dispatchTool, h1, h2, h3, h4]
    have hc : handleCallTool env st name (some a) =
        ({ text := "Error: " ++ ("Unknown tool: " ++ name) }, st) := by
      simp [handleCallTool, hd]
    constructor
    · rw [hc]
      rfl
    · refine ⟨": " ++ name, ?_⟩
      rw [hc]
      rfl

/-- Witness for C8 at the concrete unknown tool name `delete_pdf`. -/
theorem dispatch_error_payload_witness :
    ("delete_pdf" ∉ ["read_pdf", "read_pdf_page", "get_pdf_metadata", "search_pdf"]) ∧
    (handleCallTool oracleEnv emptyState "delete_pdf"
        (some { path := none, page := none, startPage := none, endPage := none,
                query := none, caseSensitive := none })).1.text =
      "Error: Unknown tool: " ++ "delete_pdf" :=
  ⟨by decide,
   (dispatch_error_payload.2 oracleEnv emptyState
      { path := none, page := none, startPage := none, endPage := none,
        query := none, caseSensitive := none }
      "delete_pdf" (by decide)).1⟩

/-! ## C3 and C5: cache behavior of `loadPDF` -/

/-- A cache hit returns immediately with an unchanged state. -/
theorem loadPDF_cache_hit (env : Env) (st : ServerState) (k : String) (c : PDFContent)
    (h : st.pdfCache.lookup k = some c) : loadPDF env st k = (Except.ok c, st) := by
  unfold loadPDF
  rw [h]

/-- After a successful load, the cache maps the identifier to the
returned content. -/
theorem loadPDF_ok_lookup (env : Env) (st : ServerState) (k : String) (c : PDFContent)
    (st₁ : ServerState) (h : loadPDF env st k = (Except.ok c, st₁)) :
    st₁.pdfCache.lookup k = some c := by
  unfold loadPDF at h
  split at h
  next c' hl =>
    injection h with h1 h2
    injection h1 with h1
    rw [← h2, hl, h1]
  next hl =>
    split at h
    next e hr => simp at h
    next buf hr =>
      split at h
      next e hp => simp at h
      next d hp =>
        injection h with h1 h2
        injection h1 with h1
        rw [← h2, ← h1]
        simp [List.lookup]

/-- Claim C3: once a load of identifier `k` has succeeded and been
cached, every subsequent operation on `k` returns the same cached
`PDFContent` with the server state (cache and I/O counters) unchanged,
under *any* environment — so no further fetch or parse can influence the
result; in particular `get_pdf_metadata` called again returns the
identical response. -/
theorem cached_identifier_stable (env : Env) (st st₁ : ServerState) (k : String)
    (c : PDFContent) (h : loadPDF env st k = (Except.ok c, st₁)) :
    (∀ env₂ : Env, loadPDF env₂ st₁ k = (Except.ok c, st₁)) ∧
    (∀ (env₂ : Env) (p : String), env₂.resolve p = k →
      handleGetMetadata env₂ st₁ p = (Except.ok (metadataResponseOf k c), st₁)) ∧
    (∀ (env₂ : Env) (p : String), env₂.resolve p = k →
      handleReadPDF env₂ st₁ p = (Except.ok (readPDFResponseOf k c), st₁)) ∧
    (∀ (env₂ : Env) (p : String) (pg sp ep : Option Int), env₂.resolve p = k →
      handleReadPDFPage env₂ st₁ p pg sp ep = (pageResponseOf k c pg sp ep, st₁)) ∧
    (∀ (env₂ : Env) (p q : String) (cs : Bool), env₂.resolve p = k →
      handleSearchPDF env₂ st₁ p q cs = (Except.ok (searchResponseOf k c q cs), st₁)) := by
  have hc := loadPDF_ok_lookup env st k c st₁ h
  refine ⟨fun env₂ => loadPDF_cache_hit env₂ st₁ k c hc, ?_, ?_, ?_, ?_⟩
  · intro env₂ p hr
    simp only [handleGetMetadata, hr, loadPDF_cache_hit env₂ st₁ k c hc]
  · intro env₂ p hr
    simp only [handleReadPDF, hr, loadPDF_cache_hit env₂ st₁ k c hc]
  · intro env₂ p pg sp ep hr
    simp only [handleReadPDFPage, hr, loadPDF_cache_hit env₂ st₁ k c hc]
  · intro env₂ p q cs hr
    simp only [handleSearchPDF, hr, loadPDF_cache_hit env₂ st₁ k c hc]

/-- Witness for C3: load `/docs/a.pdf` once through `oracleEnv`, then
observe that a second load under the all-failing environment still
returns the cached content with the state unchanged. -/
theorem cached_identifier_stable_witness :
    loadPDF oracleEnv emptyState "/docs/a.pdf" = (Except.ok loadedContent, loadedState) ∧
    loadPDF failEnv loadedState "/docs/a.pdf" = (Except.ok loadedContent, loadedState) :=
  ⟨rfl,
   (cached_identifier_stable oracleEnv emptyState loadedState "/docs/a.pdf"
      loadedContent rfl).1 failEnv⟩

/-- Claim C5: a failed load leaves the cache exactly as it was, so a
later load of the same identifier misses the cache, re-attempts the
fetch and parse, and succeeds whenever the environment now serves and
parses the document. -/
theorem failed_load_not_cached (env : Env) (st st₁ : ServerState) (k e : String)
    (h : loadPDF env st k = (Except.error e, st₁)) :
    st₁.pdfCache = st.pdfCache ∧
    ∀ (env₂ : Env) (buf : List Nat) (d : ParseData),
      env₂.readFile k = Except.ok buf → env₂.parse buf = Except.ok d →
      loadPDF env₂ st₁ k =
        (Except.ok (contentOf d),
         { st₁ with fetchCount := st₁.fetchCount + 1, parseCount := st₁.parseCount + 1,
                    pdfCache := (k, contentOf d) :: st₁.pdfCache }) := by
  have hmain : st₁.pdfCache = st.pdfCache ∧ st.pdfCache.lookup k = none := by
    unfold loadPDF at h
    split at h
    next c' hl => simp at h
    next hl =>
      split at h
      next e' hr =>
        injection h with h1 h2
        exact ⟨by rw [← h2], hl⟩
      next buf hr =>
        split at h
        next e' hp =>
          injection h with h1 h2
          exact ⟨by rw [← h2], hl⟩
        next d hp => simp at h
  refine ⟨hmain.1, fun env₂ buf d hread hparse => ?_⟩
  have hmiss : st₁.pdfCache.lookup k = none := by rw [hmain.1, hmain.2]
  unfold loadPDF
  simp only [hmiss, hread, hparse]

/-- Witness for C5: a load through the all-failing environment fails and
caches nothing; retrying the same identifier through `oracleEnv`
succeeds. -/
theorem failed_load_not_cached_witness :
    (loadPDF failEnv emptyState "/docs/a.pdf" =
      (Except.error "ENOENT", { pdfCache := [], fetchCount := 1, parseCount := 0 })) ∧
    ({ pdfCache := [], fetchCount := 1, parseCount := 0 } : ServerState).pdfCache =
      emptyState.pdfCache ∧
    loadPDF oracleEnv { pdfCache := [], fetchCount := 1, parseCount := 0 } "/docs/a.pdf" =
      (Except.ok loadedContent,
       { pdfCache := [("/docs/a.pdf", loadedContent)], fetchCount := 2, parseCount := 1 }) := by
  have h := failed_load_not_cached failEnv emptyState
    { pdfCache := [], fetchCount := 1, parseCount := 0 } "/docs/a.pdf" "ENOENT" rfl
  exact ⟨rfl, h.1, h.2 oracleEnv [1, 2, 3]
    { text := "alpha\nbeta\ngamma", numpages := 3,
      info_Title := some "T", info_Author := none, info_CreationDate := none } rfl rfl⟩

/-! ## C4 and C9: the page-segmentation slice -/

/-- A nonnegative slice index clamps to the length. -/
theorem jsSliceIndex_natCast (len i : Nat) :
    jsSliceIndex len (JSNum.fin (i : Int)) = min i len := by
  simp [jsSliceIndex]

/-- `slice` with nonnegative integer endpoints is take-then-drop. -/
theorem jsSlice_natCast (l : List α) (i j : Nat) :
    jsSlice l (JSNum.fin (i : Int)) (JSNum.fin (j : Int)) = (l.take j).drop i := by
  unfold jsSlice
  rw [jsSliceIndex_natCast, jsSliceIndex_natCast]
  rcases le_total j l.length with hj | hj
  · rw [min_eq_left hj]
    rcases le_total i l.length with hi | hi
    · rw [min_eq_left hi]
    · rw [min_eq_right hi, List.drop_eq_nil_of_le, List.drop_eq_nil_of_le]
      · exact le_trans (by rw [List.length_take]; exact min_le_right ..) hi
      · rw [List.length_take]
        exact min_le_right ..
  · rw [min_eq_right hj, List.take_length, List.take_of_length_le hj]
    rcases le_total i l.length with hi | hi
    · rw [min_eq_left hi]
    · rw [min_eq_right hi, List.drop_eq_nil_of_le le_rfl, List.drop_eq_nil_of_le hi]

/-- The positive-page-count case of `jsCeilDiv` is the exact ceiling. -/
theorem jsCeilDiv_of_pos (a b : Nat) (hb : b ≠ 0) :
    jsCeilDiv a b = JSNum.fin (((a + b - 1) / b : Nat) : Int) := by
  simp [jsCeilDiv, hb]

/-- `linesPerPage = ceiling(totalLines / pageCount)` as the claims state
it, for a positive page count. -/
def linesPerPageSpec (content : PDFContent) : Nat :=
  ((splitLines content.text).length + content.metadata.pages - 1) / content.metadata.pages

/-- Claim C4: for a document with a positive page count, a single-page
request for page `p ≥ 1` returns exactly the lines with 0-based indices
in `[(p-1)*linesPerPage, p*linesPerPage)`, clamped to the available
lines, joined with newlines; a `p` whose start index is at or past the
last line yields an empty text string, not an error. -/
theorem single_page_slice (content : PDFContent) (p : Nat)
    (hpages : 1 ≤ content.metadata.pages) (hp : 1 ≤ p) :
    extractPageText content (some (p : Int)) none none =
      Except.ok (String.intercalate "\n"
        (((splitLines content.text).take (p * linesPerPageSpec content)).drop
          ((p - 1) * linesPerPageSpec content))) ∧
    ((splitLines content.text).length ≤ (p - 1) * linesPerPageSpec content →
      extractPageText content (some (p : Int)) none none = Except.ok "") := by
  have hb : content.metadata.pages ≠ 0 := by omega
  have hceil : jsCeilDiv (splitLines content.text).length content.metadata.pages =
      JSNum.fin ((linesPerPageSpec content : Nat) : Int) :=
    jsCeilDiv_of_pos _ _ hb
  have hstart : ((p : Int) - 1) * ((linesPerPageSpec content : Nat) : Int) =
      (((p - 1) * linesPerPageSpec content : Nat) : Int) := by
    have h1 : ((p : Int) - 1) = (((p - 1 : Nat) : Nat) : Int) := by omega
    rw [h1, ← Nat.cast_mul]
  have hend : (p : Int) * ((linesPerPageSpec content : Nat) : Int) =
      ((p * linesPerPageSpec content : Nat) : Int) := by
    rw [← Nat.cast_mul]
  have hmain : extractPageText content (some (p : Int)) none none =
      Except.ok (String.intercalate "\n"
        (((splitLines content.text).take (p * linesPerPageSpec content)).drop
          ((p - 1) * linesPerPageSpec content))) := by
    simp only [extractPageText, hceil, jsMulInt, hstart, hend, jsSlice_natCast]
  refine ⟨hmain, fun hlen => ?_⟩
  rw [hmain]
  have hnil : (((splitLines content.text).take (p * linesPerPageSpec content)).drop
      ((p - 1) * linesPerPageSpec content)) = [] := by
    apply List.drop_eq_nil_of_le
    rw [List.length_take]
    exact le_trans (min_le_right ..) hlen
  rw [hnil]
  rfl

/-- A 50-line document reporting 5 pages, as in the spec's example. -/
def fiftyLines : List String := (List.range 50).map (fun i => "L" ++ toString i)

/-- The example document: `pageCount = 5`, 50 extracted lines. -/
def exContent : PDFContent :=
  { text := String.intercalate "\n" fiftyLines,
    metadata := { title := none, author := none, pages := 5, created := none } }

set_option maxRecDepth 4000 in
/-- Witness for C4: on the 50-line, 5-page document, `linesPerPage = 10`
and page 2 is exactly the 0-indexed lines 10..19; page 999 gives the
empty string. -/
theorem single_page_slice_witness :
    1 ≤ exContent.metadata.pages ∧ linesPerPageSpec exContent = 10 ∧
    extractPageText exContent (some (2 : Int)) none none =
      Except.ok "L10\nL11\nL12\nL13\nL14\nL15\nL16\nL17\nL18\nL19" ∧
    extractPageText exContent (some (999 : Int)) none none = Except.ok "" :=
  ⟨by decide, by decide,
   Eq.trans ((single_page_slice exContent 2 (by decide) (by decide)).1) (by decide),
   (single_page_slice exContent 999 (by decide) (by decide)).2 (by decide)⟩

/-- Claim C9: for a document with a positive page count and a range
request with `startPage > endPage ≥ 1`, the computed start index
`(startPage-1)*linesPerPage` is at least the end index
`endPage*linesPerPage`, so the slice is empty and `read_pdf_page`
returns an empty text string rather than an error. -/
theorem reversed_range_empty (content : PDFContent) (s e : Nat)
    (hpages : 1 ≤ content.metadata.pages) (he : 1 ≤ e) (hse : e < s) :
    extractPageText content none (some (s : Int)) (some (e : Int)) = Except.ok "" := by
  have hb : content.metadata.pages ≠ 0 := by omega
  have hceil : jsCeilDiv (splitLines content.text).length content.metadata.pages =
      JSNum.fin ((linesPerPageSpec content : Nat) : Int) :=
    jsCeilDiv_of_pos _ _ hb
  have hstart : ((s : Int) - 1) * ((linesPerPageSpec content : Nat) : Int) =
      (((s - 1) * linesPerPageSpec content : Nat) : Int) := by
    have h1 : ((s : Int) - 1) = (((s - 1 : Nat) : Nat) : Int) := by omega
    rw [h1, ← Nat.cast_mul]
  have hend : (e : Int) * ((linesPerPageSpec content : Nat) : Int) =
      ((e * linesPerPageSpec content : Nat) : Int) := by
    rw [← Nat.cast_mul]
  have hmain : extractPageText content none (some (s : Int)) (some (e : Int)) =
      Except.ok (String.intercalate "\n"
        (((splitLines content.text).take (e * linesPerPageSpec content)).drop
          ((s - 1) * linesPerPageSpec content))) := by
    simp only [extractPageText, hceil, jsMulInt, hstart, hend, jsSlice_natCast]
  rw [hmain]
  have hnil : (((splitLines content.text).take (e * linesPerPageSpec content)).drop
      ((s - 1) * linesPerPageSpec content)) = [] := by
    apply List.drop_eq_nil_of_le
    rw [List.length_take]
    refine le_trans (min_le_left ..) (Nat.mul_le_mul_right _ ?_)
    omega
  rw [hnil]
  rfl

set_option maxRecDepth 4000 in
/-- Witness for C9: `startPage = 5, endPage = 2` on the example document
gives the empty string. -/
theorem reversed_range_empty_witness :
    1 ≤ exContent.metadata.pages ∧ (1 : Nat) ≤ 2 ∧ (2 : Nat) < 5 ∧
    extractPageText exContent none (some (5 : Int)) (some (2 : Int)) = Except.ok "" :=
  ⟨by decide, by decide, by decide,
   reversed_range_empty exContent 5 2 (by decide) (by decide) (by decide)⟩

/-! ## C6, C7, C10: the search engine -/

/-- `startsList` decides the prefix relation. -/
theorem startsList_iff (q s : List Char) :
    startsList q s = true ↔ ∃ u, s = q ++ u := by
  induction q generalizing s with
  | nil => simp [startsList]
  | cons a as ih =>
      cases s with
      | nil =>
          simp [startsList]
      | cons b bs =>
          simp only [startsList, Bool.and_eq_true, beq_iff_eq, ih, List.cons_append,
            List.cons.injEq]
          constructor
          · rintro ⟨hab, u, hu⟩
            exact ⟨u, hab.symm, hu⟩
          · rintro ⟨u, hab, hu⟩
            exact ⟨hab.symm, u, hu⟩

/-- `hasSub` decides substring containment. -/
theorem hasSub_iff (s q : List Char) :
    hasSub s q = true ↔ ∃ t u, s = t ++ q ++ u := by
  induction s with
  | nil =>
      simp only [hasSub, startsList_iff]
      constructor
      · rintro ⟨u, hu⟩
        exact ⟨[], u, hu⟩
      · rintro ⟨t, u, htu⟩
        have h1 := htu.symm
        obtain ⟨h2, hu⟩ := List.append_eq_nil.mp h1
        obtain ⟨ht, hq⟩ := List.append_eq_nil.mp h2
        exact ⟨[], by simp [hq]⟩
  | cons a t ih =>
      simp only [hasSub, Bool.or_eq_true, startsList_iff, ih]
      constructor
      · rintro (⟨u, hu⟩ | ⟨t', u, htu⟩)
        · exact ⟨[], u, by simpa using hu⟩
        · exact ⟨a :: t', u, by simp [htu]⟩
      · rintro ⟨t', u, htu⟩
        cases t' with
        | nil =>
            left
            exact ⟨u, by simpa using htu⟩
        | cons b bs =>
            right
            refine ⟨bs, u, ?_⟩
            have := htu
            simp only [List.cons_append, List.cons.injEq] at this
            exact this.2

/-- JavaScript `includes` is substring containment on the character
lists. -/
theorem strIncludes_iff (s q : String) :
    strIncludes s q = true ↔ ∃ t u, s.data = t ++ q.data ++ u :=
  hasSub_iff s.data q.data

/-- `l.take 1` is the singleton of the head when it exists. -/
theorem take_one_toList (l : List α) : l.take 1 = (l[0]?).toList := by
  cases l with
  | nil => rfl
  | cons a t => simp

/-- The context window `lines.slice(max(0, i-1), min(len, i+2))` is the
line before (when it exists), the line itself, and the line after (when
it exists). -/
theorem window_slice (l : List α) (i : Nat) (x : α) (h : l[i]? = some x) :
    (l.take (min l.length (i + 2))).drop (i - 1) =
      (if i = 0 then [] else (l[(i - 1)]?).toList) ++ [x] ++ (l[(i + 1)]?).toList := by
  have hi : i < l.length := by
    by_contra hc
    rw [List.getElem?_eq_none (by omega)] at h
    exact Option.noConfusion h
  have hmin : l.take (min l.length (i + 2)) = l.take (i + 2) := by
    rcases le_total l.length (i + 2) with hle | hle
    · rw [min_eq_left hle, List.take_length, List.take_of_length_le hle]
    · rw [min_eq_right hle]
  rw [hmin, List.drop_take]
  cases i with
  | zero =>
      simp only [Nat.zero_sub, List.drop_zero, if_pos rfl, List.nil_append]
      cases l with
      | nil => exact absurd h (by simp)
      | cons a t =>
          have hx : a = x := by simpa using h
          subst hx
          simp only [Nat.sub_zero, List.take_succ_cons, List.drop_succ_cons, List.drop_zero]
          rw [take_one_toList]
          simp
  | succ j =>
      have hj : j < l.length := by omega
      have hsub : j + 1 + 2 - (j + 1 - 1) = 3 := by omega
      rw [hsub]
      have hdropj : l.drop (j + 1 - 1) = l[j] :: l.drop (j + 1) := by
        simp only [Nat.add_sub_cancel]
        exact List.drop_eq_getElem_cons hj
      rw [hdropj]
      have hdropj1 : l.drop (j + 1) = x :: l.drop (j + 2) := by
        have := List.drop_eq_getElem_cons (l := l) (n := j + 1) (by omega)
        rw [this]
        congr 1
        have hx : l[j + 1]? = some l[j + 1] := List.getElem?_eq_getElem (by omega)
        rw [h] at hx
        exact (Option.some.injEq .. ▸ hx).symm
      rw [hdropj1]
      simp only [List.take_succ_cons, take_one_toList]
      rw [List.getElem?_drop]
      have hgetj : l[(j + 1 - 1)]? = some l[j] := by
        simp only [Nat.add_sub_cancel]
        exact List.getElem?_eq_getElem hj
      rw [if_neg (by omega), hgetj]
      rfl

/-- The shape of a pushed match at a valid index: 1-based line number,
trimmed original-case text, and the one-line-each-side context window
joined with newlines. -/
theorem mkMatch_fields (lines : List String) (i : Nat) (line : String)
    (h : lines[i]? = some line) :
    mkMatch lines i line =
      { line := i + 1, text := jsTrim line,
        context := String.intercalate "\n"
          ((if i = 0 then [] else (lines[(i - 1)]?).toList) ++ [line] ++
           (lines[(i + 1)]?).toList) } := by
  unfold mkMatch
  simp only []
  rw [window_slice lines i line h]

/-- Every match produced by the search loop is the match record of some
line of the scanned list whose normalized text includes the query. -/
theorem searchLoop_mem (al : List String) (sq : String) (cs : Bool) :
    ∀ (l : List String) (idx : Nat) (m : SearchMatch),
      m ∈ searchLoop al sq cs l idx →
      ∃ j line, l[j]? = some line ∧ m = mkMatch al (idx + j) line ∧
        strIncludes (if cs then line else jsToLower line) sq = true := by
  intro l
  induction l with
  | nil =>
      intro idx m hm
      simp [searchLoop] at hm
  | cons a t ih =>
      intro idx m hm
      by_cases hc : strIncludes (if cs then a else jsToLower a) sq = true
      · rw [searchLoop, if_pos hc] at hm
        rcases List.mem_cons.mp hm with hm | hm
        · exact ⟨0, a, by simp, by simpa using hm, hc⟩
        · obtain ⟨j, line, hj, hmEq, hP⟩ := ih (idx + 1) m hm
          refine ⟨j + 1, line, by simpa using hj, ?_, hP⟩
          rw [hmEq]
          congr 1
          omega
      · rw [searchLoop, if_neg hc] at hm
        obtain ⟨j, line, hj, hmEq, hP⟩ := ih (idx + 1) m hm
        refine ⟨j + 1, line, by simpa using hj, ?_, hP⟩
        rw [hmEq]
        congr 1
        omega

/-- Every match produced by the loop started at `idx` has a line number
strictly above `idx`. -/
theorem searchLoop_line_lb (al : List String) (sq : String) (cs : Bool)
    (l : List String) (idx : Nat) (m : SearchMatch)
    (hm : m ∈ searchLoop al sq cs l idx) : idx < m.line := by
  obtain ⟨j, line, hj, hmEq, hP⟩ := searchLoop_mem al sq cs l idx m hm
  rw [hmEq]
  show idx < idx + j + 1
  omega

/-- The search loop emits matches in strictly ascending line order. -/
theorem searchLoop_pairwise (al : List String) (sq : String) (cs : Bool) :
    ∀ (l : List String) (idx : Nat),
      List.Pairwise (fun a b => a.line < b.line) (searchLoop al sq cs l idx) := by
  intro l
  induction l with
  | nil =>
      intro idx
      simp [searchLoop]
  | cons a t ih =>
      intro idx
      by_cases hc : strIncludes (if cs then a else jsToLower a) sq = true
      · rw [searchLoop, if_pos hc]
        refine List.pairwise_cons.mpr ⟨fun m hm => ?_, ih (idx + 1)⟩
        have := searchLoop_line_lb al sq cs t (idx + 1) m hm
        show (mkMatch al idx a).line < m.line
        simp only [mkMatch]
        omega
      · rw [searchLoop, if_neg hc]
        exact ih (idx + 1)

/-- A line number `n` occurs among the loop's matches exactly when the
line at the corresponding index matches the query. -/
theorem searchLoop_any_line (al : List String) (sq : String) (cs : Bool) :
    ∀ (l : List String) (idx n : Nat),
      ((searchLoop al sq cs l idx).any (fun m => m.line == n)) = true ↔
      ∃ j line, l[j]? = some line ∧ n = idx + j + 1 ∧
        strIncludes (if cs then line else jsToLower line) sq = true := by
  intro l
  induction l with
  | nil =>
      intro idx n
      simp [searchLoop]
  | cons a t ih =>
      intro idx n
      by_cases hc : strIncludes (if cs then a else jsToLower a) sq = true
      · rw [searchLoop, if_pos hc]
        rw [List.any_cons]
        simp only [Bool.or_eq_true, ih (idx + 1) n]
        constructor
        · rintro (hhead | ⟨j, line, hj, hn, hP⟩)
          · have hn : (mkMatch al idx a).line = n := by
              exact beq_iff_eq.mp hhead
            refine ⟨0, a, by simp, ?_, hc⟩
            simp only [mkMatch] at hn
            omega
          · exact ⟨j + 1, line, by simpa using hj, by omega, hP⟩
        · rintro ⟨j, line, hj, hn, hP⟩
          cases j with
          | zero =>
              left
              have hline : a = line := by simpa using hj
              subst hline
              have : (mkMatch al idx a).line = n := by
                simp only [mkMatch]
                omega
              exact beq_iff_eq.mpr this
          | succ j' =>
              right
              exact ⟨j', line, by simpa using hj, by omega, hP⟩
      · rw [searchLoop, if_neg hc]
        rw [ih (idx + 1) n]
        constructor
        · rintro ⟨j, line, hj, hn, hP⟩
          exact ⟨j + 1, line, by simpa using hj, by omega, hP⟩
        · rintro ⟨j, line, hj, hn, hP⟩
          cases j with
          | zero =>
              have hline : a = line := by simpa using hj
              subst hline
              exact absurd hP hc
          | succ j' =>
              exact ⟨j', line, by simpa using hj, by omega, hP⟩

/-- The loop produces one match per matching line: its length is the
number of lines whose normalized text includes the query. -/
theorem searchLoop_length (al : List String) (sq : String) (cs : Bool) :
    ∀ (l : List String) (idx : Nat),
      (searchLoop al sq cs l idx).length =
        (l.filter (fun ln => strIncludes (if cs then ln else jsToLower ln) sq)).length := by
  intro l
  induction l with
  | nil =>
      intro idx
      simp [searchLoop]
  | cons a t ih =>
      intro idx
      by_cases hc : strIncludes (if cs then a else jsToLower a) sq = true
      · rw [searchLoop, if_pos hc, List.filter_cons_of_pos (by simpa using hc)]
        simp [ih (idx + 1)]
      · rw [searchLoop, if_neg hc, List.filter_cons_of_neg (by simpa using hc)]
        exact ih (idx + 1)

/-- The empty query is included in every string. -/
theorem strIncludes_empty (s : String) : strIncludes s "" = true := by
  unfold strIncludes
  cases s.data <;> simp [hasSub, startsList]

/-- Claim C6: `search_pdf` with `caseSensitive = false` matches the line
at index `i` exactly when the lowercased line contains the lowercased
query as a substring, and with `caseSensitive = true` exactly when the
original line contains the original query. -/
theorem search_case_sensitivity (text query : String) (i : Nat) (line : String)
    (h : (splitLines text)[i]? = some line) :
    (((searchPDFMatches text query false).any (fun m => m.line == i + 1)) = true ↔
      ∃ t u, (jsToLower line).data = t ++ (jsToLower query).data ++ u) ∧
    (((searchPDFMatches text query true).any (fun m => m.line == i + 1)) = true ↔
      ∃ t u, line.data = t ++ query.data ++ u) := by
  constructor
  · rw [show searchPDFMatches text query false =
        searchLoop (splitLines text) (jsToLower query) false (splitLines text) 0 from rfl]
    rw [searchLoop_any_line]
    constructor
    · rintro ⟨j, line', hj, hn, hP⟩
      have hji : j = i := by omega
      subst hji
      rw [h] at hj
      injection hj with hj
      subst hj
      simpa [strIncludes_iff] using hP
    · intro hex
      refine ⟨i, line, h, by omega, ?_⟩
      simpa [strIncludes_iff] using hex
  · rw [show searchPDFMatches text query true =
        searchLoop (splitLines text) query true (splitLines text) 0 from rfl]
    rw [searchLoop_any_line]
    constructor
    · rintro ⟨j, line', hj, hn, hP⟩
      have hji : j = i := by omega
      subst hji
      rw [h] at hj
      injection hj with hj
      subst hj
      simpa [strIncludes_iff] using hP
    · intro hex
      refine ⟨i, line, h, by omega, ?_⟩
      simpa [strIncludes_iff] using hex

/-- Witness for C6: query `Foo` matches the line `foo bar` (line 2 of
the document) case-insensitively but not case-sensitively. -/
theorem search_case_sensitivity_witness :
    (splitLines "Hello\nfoo bar\nWorld")[1]? = some "foo bar" ∧
    ((searchPDFMatches "Hello\nfoo bar\nWorld" "Foo" false).any
      (fun m => m.line == 1 + 1)) = true ∧
    ((searchPDFMatches "Hello\nfoo bar\nWorld" "Foo" true).any
      (fun m => m.line == 1 + 1)) = false := by
  have h := search_case_sensitivity "Hello\nfoo bar\nWorld" "Foo" 1 "foo bar" (by decide)
  refine ⟨by decide, h.1.mpr ⟨[], " bar".data, by decide⟩, by decide⟩

/-- Claim C7: every search match carries the 1-based line number of its
line, the trimmed original-case line text, and a context of the line
before (clamped at the first line), the line itself, and the line after
(clamped at the last line), joined with newlines from original text; the
matches appear in strictly ascending line order, and their total count
is the number of matching lines (no result limit). -/
theorem search_match_shape (text query : String) (cs : Bool) :
    (∀ m ∈ searchPDFMatches text query cs, ∃ i line,
      (splitLines text)[i]? = some line ∧
      m.line = i + 1 ∧
      m.text = jsTrim line ∧
      m.context = String.intercalate "\n"
        ((if i = 0 then [] else ((splitLines text)[(i - 1)]?).toList) ++ [line] ++
         ((splitLines text)[(i + 1)]?).toList)) ∧
    List.Pairwise (fun a b => a.line < b.line) (searchPDFMatches text query cs) ∧
    (searchPDFMatches text query cs).length =
      ((splitLines text).filter (fun ln =>
        strIncludes (if cs then ln else jsToLower ln)
          (if cs then query else jsToLower query))).length := by
  refine ⟨?_, ?_, ?_⟩
  · intro m hm
    obtain ⟨j, line, hj, hmEq, hP⟩ :=
      searchLoop_mem (splitLines text) (if cs then query else jsToLower query) cs
        (splitLines text) 0 m (by
          rw [show searchLoop (splitLines text) (if cs then query else jsToLower query) cs
              (splitLines text) 0 = searchPDFMatches text query cs from rfl]
          exact hm)
    refine ⟨j, line, hj, ?_⟩
    rw [hmEq, Nat.zero_add, mkMatch_fields (splitLines text) j line hj]
    exact ⟨rfl, rfl, rfl⟩
  · exact searchLoop_pairwise ..
  · exact searchLoop_length ..

/-- Witness for C7 at a concrete three-line document: the match on line
2 carries line number 2, the trimmed text, and the full three-line
context. -/
theorem search_match_shape_witness :
    ({ line := 2, text := "foo bar", context := "Hello\nfoo bar\nWorld" } : SearchMatch) ∈
      searchPDFMatches "Hello\nfoo bar\nWorld" "foo" false ∧
    ∃ i line, (splitLines "Hello\nfoo bar\nWorld")[i]? = some line ∧
      ({ line := 2, text := "foo bar", context := "Hello\nfoo bar\nWorld" } :
          SearchMatch).line = i + 1 ∧
      ({ line := 2, text := "foo bar", context := "Hello\nfoo bar\nWorld" } :
          SearchMatch).text = jsTrim line ∧
      ({ line := 2, text := "foo bar", context := "Hello\nfoo bar\nWorld" } :
          SearchMatch).context = String.intercalate "\n"
        ((if i = 0 then [] else ((splitLines "Hello\nfoo bar\nWorld")[(i - 1)]?).toList) ++
         [line] ++ ((splitLines "Hello\nfoo bar\nWorld")[(i + 1)]?).toList) :=
  ⟨by decide,
   (search_match_shape "Hello\nfoo bar\nWorld" "foo" false).1 _ (by decide)⟩

/-- Claim C10: the empty query matches every line: the matches are one
per line with line numbers `1, 2, ..., n` in order, and the total match
count equals the number of lines. -/
theorem empty_query_matches_all (text : String) (cs : Bool) :
    (searchPDFMatches text "" cs).map (fun m => m.line) =
      List.range' 1 (splitLines text).length ∧
    (searchPDFMatches text "" cs).length = (splitLines text).length := by
  have hq : (if cs then "" else jsToLower "") = "" := by cases cs <;> rfl
  have hloop : ∀ (l : List String) (idx : Nat),
      (searchLoop (splitLines text) "" cs l idx).map (fun m => m.line) =
        List.range' (idx + 1) l.length := by
    intro l
    induction l with
    | nil => intro idx; simp [searchLoop]
    | cons a t ih =>
        intro idx
        rw [searchLoop, if_pos (strIncludes_empty _)]
        rw [List.map_cons, ih (idx + 1), List.length_cons, List.range'_succ]
        rfl
  have h1 : searchPDFMatches text "" cs =
      searchLoop (splitLines text) "" cs (splitLines text) 0 := by
    show searchLoop (splitLines text) (if cs then "" else jsToLower "") cs
      (splitLines text) 0 = _
    rw [hq]
  rw [h1]
  refine ⟨by simpa using hloop (splitLines text) 0, ?_⟩
  have := congrArg List.length (hloop (splitLines text) 0)
  simpa using this
